import Mathlib

/-!
Verification of the ts-form-validator repository.

The development shallowly embeds the TypeScript sources:
  * `src/validator-widget/rule.ts`      — Result values and the sync/async rule algebra,
  * `src/validator-widget/rule-builders.ts` — the runtime rule-builder catalogs,
  * `src/validator-widget/state.ts`     — the per-field state machine and the validator
    aggregate,
  * `src/validator-widget/widget.tsx`   — the job promotion driver (jobManager plus the
    promise-settlement fold),
  * the early prototype validator (`validatorFromResult`).

Modelling conventions used throughout:
  * a JavaScript `Promise<Result>` is modelled by its settlement, `Except ε Result`
    (`Except.ok` = resolved, `Except.error` = rejected);
  * a JavaScript value that may be `undefined` is modelled as an `Option`;
  * an expression that throws a `TypeError` (property access on `undefined`, calling a
    `null` catalog entry) is modelled by returning `none` from an `Option`-valued
    function;
  * JS object maps are modelled as association lists `List (String × _)` with
    first-match lookup.
-/

namespace TsFormValidator

/-! ## Result (rule.ts lines 61-77)

`data` values are stringified for the embedding; the `failed` constructor merges the
rule name into the data bag under the key `name`, exactly as
`failed = (name, data = {}) => ({kind: 'failed', name, data: {...data, name}})`. -/

inductive Result where
  | passed : Result
  | failed (name : String) (data : List (String × String)) : Result
deriving DecidableEq, Repr

/-- `failed(name, data)` from rule.ts: the data bag always gains a `name` entry. -/
def failedR (name : String) (data : List (String × String)) : Result :=
  Result.failed name (data ++ [("name", name)])

/-- `r.kind == 'passed'` as a Bool. -/
def Result.isPassed : Result → Bool
  | .passed => true
  | .failed _ _ => false

/-! ## Sync rule algebra (rule.ts lines 83-103)

`SyncRule<root, prop>` wraps `run : (v: prop, r: root) => Result`. -/

structure SyncRule (ρ π : Type) where
  run : π → ρ → Result

/-- `and(r)` from rule.ts lines 86-92: run the left rule; a `failed` result is returned
as-is and the right rule is not consulted, otherwise the result is the right rule's. -/
def SyncRule.and (r1 r2 : SyncRule ρ π) : SyncRule ρ π :=
  ⟨fun a root =>
    match r1.run a root with
    | .failed n d => .failed n d
    | .passed => r2.run a root⟩

/-- `or(r)` from rule.ts lines 93-99. -/
def SyncRule.or (r1 r2 : SyncRule ρ π) : SyncRule ρ π :=
  ⟨fun a root =>
    match r1.run a root with
    | .passed => .passed
    | .failed _ _ => r2.run a root⟩

/-! ## Async rule algebra (rule.ts lines 109-129)

A promise is modelled by its settlement: `Except ε Result`. -/

structure AsyncRule (ρ π ε : Type) where
  run : π → ρ → Except ε Result

/-- `asyncRule.and` from rule.ts lines 112-119: await the left rule (a rejection
propagates through the `await`); a resolved `failed` is returned without consulting
the right rule, otherwise the composite settles as the right rule settles. -/
def AsyncRule.and (r1 r2 : AsyncRule ρ π ε) : AsyncRule ρ π ε :=
  ⟨fun a root => do
    let r1r ← r1.run a root
    match r1r with
    | .failed n d => pure (.failed n d)
    | .passed => r2.run a root⟩

/-- `asyncRule.or` from rule.ts lines 120-128. -/
def AsyncRule.or (r1 r2 : AsyncRule ρ π ε) : AsyncRule ρ π ε :=
  ⟨fun a root => do
    let r1r ← r1.run a root
    match r1r with
    | .passed => pure .passed
    | .failed _ _ => r2.run a root⟩

/-- `async()` from rule.ts lines 100-102:
`asyncRule(a => Promise.resolve(this.run(a)))`.
The wrapping lambda binds only the value argument, so the root the async rule is run
with is ignored, and `this.run` receives JavaScript `undefined` in its root slot.
`undef` stands for that `undefined` value of the root type. -/
def SyncRule.toAsync (r : SyncRule ρ π) (undef : ρ) : AsyncRule ρ π ε :=
  ⟨fun a _root => Except.ok (r.run a undef)⟩

/-- `custom: (f) => rule(f)` from rule-builders.ts line 658. -/
def customRule (f : π → ρ → Result) : SyncRule ρ π :=
  ⟨f⟩

/-! ## Rule builder catalogs

A raw string field value may be absent (`null`/`undefined`), modelled as
`Option String`; `jsOr v` is the guard `(v || '')` many primitives apply.
A primitive whose body dereferences the raw value directly
(`a.length`, `e.includes`, `a.toLocaleLowerCase`) throws a `TypeError` on an
absent value: its embedding returns `none`. The source wraps each predicate
with `rule(...)`; running the resulting rule executes exactly the predicate
embedded here. -/

abbrev StrVal := Option String

/-- The JS guard `(v || '')`. -/
def jsOr (v : StrVal) : String := v.getD ""

/-! The generic runtime catalog, rule-builders.ts lines 585-665
(`ruleBuilder: <root>() => ...`). -/
namespace RB

/-- `required: rule(a => (a || '').length > 0 ? passed : failed('required'))` (line 601). -/
def required (a : StrVal) : Option Result :=
  some (if 0 < (jsOr a).length then .passed else failedR "required" [])

/-- `empty: rule(a => (a || '').length == 0 ? passed : failed('empty'))` (line 660). -/
def empty (a : StrVal) : Option Result :=
  some (if (jsOr a).length = 0 then .passed else failedR "empty" [])

/-- `max` (line 591): `n >= a.length` — `a.length` throws on an absent value. -/
def max (n : Int) (a : StrVal) : Option Result :=
  match a with
  | none => none
  | some s => some (if (s.length : Int) ≤ n then .passed
      else failedR "max" [("expected", toString n), ("given", s), ("length", toString s.length)])

/-- `min` (line 593): `n <= a.length` — `a.length` throws on an absent value. -/
def min (n : Int) (a : StrVal) : Option Result :=
  match a with
  | none => none
  | some s => some (if n ≤ (s.length : Int) then .passed
      else failedR "min" [("expected", toString n), ("given", s), ("length", toString s.length)])

/-- `email` (line 607): `e.includes('@')` — throws on an absent value. -/
def email (a : StrVal) : Option Result :=
  match a with
  | none => none
  | some e => some (if e.contains '@' then .passed else failedR "email" [("given", e)])

/-- `hasCapital` (line 595): `a.toLocaleLowerCase() != a` — throws on an absent value.
Locale lowercasing is modelled by `String.toLower`. -/
def hasCapital (a : StrVal) : Option Result :=
  match a with
  | none => none
  | some s => some (if s.toLower ≠ s then .passed else failedR "hasCapital" [("given", s)])

/-- `length` (line 626): guarded, `(v || '').length == n`. -/
def length (n : Int) (v : StrVal) : Option Result :=
  some (if ((jsOr v).length : Int) = n then .passed
    else failedR "length" [("kind", "length"), ("given", toString (jsOr v).length), ("expected", toString n)])

/-- `startsWith` (line 632): guarded. -/
def startsWith (s : String) (v : StrVal) : Option Result :=
  some (if (jsOr v).startsWith s then .passed
    else failedR "startsWith" [("kind", "startsWith"), ("given", jsOr v), ("expected", s)])

/-- `startsNotWith` (line 634): guarded. -/
def startsNotWith (s : String) (v : StrVal) : Option Result :=
  some (if !(jsOr v).startsWith s then .passed
    else failedR "startsNotWith" [("kind", "startsNotWith"), ("given", jsOr v), ("expected", s)])

/-- `endsWith` (line 628): guarded. -/
def endsWith (s : String) (v : StrVal) : Option Result :=
  some (if (jsOr v).endsWith s then .passed
    else failedR "endswith" [("kind", "endswith"), ("given", jsOr v), ("expected", s)])

/-- `endsNotWith` (line 630): guarded. -/
def endsNotWith (s : String) (v : StrVal) : Option Result :=
  some (if !(jsOr v).endsWith s then .passed
    else failedR "endsNotWith" [("kind", "endsNotWith"), ("given", jsOr v), ("expected", s)])

/-- `url` (line 646): guarded on every dereference. -/
def url (v : StrVal) : Option Result :=
  some (if ((jsOr v).startsWith "http://" || (jsOr v).startsWith "https://")
            && (jsOr v).contains '.'
    then .passed else failedR "url" [("kind", "url"), ("given", jsOr v)])

/- The four catalog entries left as `null!` stubs (lines 648-654): invoking any of
them is a call of `null` and throws immediately. Each slot's value is `none`. -/

/-- `between: null!` (line 648). -/
def between : Option (Int → Int → Int → Option Result) := none

/-- `betweenIncuding: null!` (line 650). -/
def betweenIncuding : Option (Int → Int → Int → Option Result) := none

/-- `contains: null!` (line 652). -/
def contains : Option (String → Bool → StrVal → Option Result) := none

/-- `containsNot: null!` (line 654). -/
def containsNot : Option (String → Bool → StrVal → Option Result) := none

/-- `bigger: n => rule(v => v > n ? passed : failed('bigger', ...))` (line 618). -/
def bigger (n : Int) (v : Int) : Result :=
  if v > n then .passed else failedR "bigger" [("kind", "bigger"), ("given", toString v)]

/-- `biggerOr: n => rule(v => v > n ? ... : failed('biggerOr', ...))` (line 620):
the comparison is `v > n`, not `v >= n`. -/
def biggerOr (n : Int) (v : Int) : Result :=
  if v > n then .passed else failedR "biggerOr" [("kind", "biggerOr"), ("given", toString v)]

/-- `lesser: n => rule(v => v > n ? ... : failed('lesser', ...))` (line 622):
the comparison is `v > n`. -/
def lesser (n : Int) (v : Int) : Result :=
  if v > n then .passed else failedR "lesser" [("kind", "lesser"), ("given", toString v)]

/-- `lesserOr: n => rule(v => v > n ? ... : failed('lesserOr', ...))` (line 624):
the comparison is `v > n`. -/
def lesserOr (n : Int) (v : Int) : Result :=
  if v > n then .passed else failedR "lesserOr" [("kind", "lesserOr"), ("given", toString v)]

end RB

/-! The first, non-generic catalog of rule-builders.ts (lines 242-309). -/
namespace RB1

/-- `bigger` (line 273). -/
def bigger (n : Int) (v : Int) : Result :=
  if v > n then .passed else failedR "bigger" [("kind", "bigger"), ("given", toString v)]

/-- `lesser` (line 277): the comparison is `v > n`. -/
def lesser (n : Int) (v : Int) : Result :=
  if v > n then .passed else failedR "lesser" [("kind", "lesser"), ("given", toString v)]

/-- `lesserOr` (line 279): the comparison is `v > n`. -/
def lesserOr (n : Int) (v : Int) : Result :=
  if v > n then .passed else failedR "lesserOr" [("kind", "lesserOr"), ("given", toString v)]

end RB1

/-! The catalog variant in the renamed builder file (src/unnamed/part_002 lines
256-330, `ruleBuilder: <root>() => ...` with `isRequired`/`hasMinLength` naming). -/
namespace RBv2

/-- `bigger` (part_002 line 291). -/
def bigger (n : Int) (v : Int) : Result :=
  if v > n then .passed else failedR "bigger" [("kind", "bigger"), ("given", toString v)]

/-- `lesser` (part_002 line 295): the comparison is `v > n`. -/
def lesser (n : Int) (v : Int) : Result :=
  if v > n then .passed else failedR "lesser" [("kind", "lesser"), ("given", toString v)]

/-- `lesserOr` (part_002 line 297): the comparison is `v > n`. -/
def lesserOr (n : Int) (v : Int) : Result :=
  if v > n then .passed else failedR "lesserOr" [("kind", "lesserOr"), ("given", toString v)]

end RBv2

/-! ## Field state machine (state.ts lines 99-141)

`state.ts` runs a field's rule on the field value alone (`self.rule.run(data)`),
so a field-level rule is a sync predicate `π → Result` or an async predicate
`π → Except ε Result` (the settlement of the promise it returns). -/

inductive FRule (π ε : Type) where
  | sync (run : π → Result) : FRule π ε
  | async (run : π → Except ε Result) : FRule π ε

/-- A queued or running job. `validate` queues a closure over the data it was
requested with; `clear` queues `() => passed` (`Job.pass`). The embedding tags
each job with what its closure will compute. -/
inductive Job (π : Type) where
  | run (v : π) : Job π
  | pass : Job π
deriving DecidableEq, Repr

/-- The `jobs` record: `current` — the running job, `next` — the queued job. -/
structure Jobs (π : Type) where
  current : Option (Job π)
  next : Option (Job π)

/-- The `kind` discriminant of a FieldState, with the `validated` result bundled. -/
inductive FKind where
  | unvalidated : FKind
  | validating : FKind
  | validated (result : Result) : FKind
deriving DecidableEq, Repr

structure FieldSt (π ε : Type) where
  kind : FKind
  rule : FRule π ε
  jobs : Jobs π

/-- What a job settles with: `validate`'s closures run the field's rule on the
captured data (a sync rule's promise always resolves); `clear`'s `() => passed`
closure resolves with `passed`. -/
def FRule.exec (r : FRule π ε) (j : Job π) : Except ε Result :=
  match j, r with
  | .pass, _ => .ok .passed
  | .run v, .sync run => .ok (run v)
  | .run v, .async run => run v

/-- `passed()` from state.ts lines 106-108:
`this.kind == 'validated' && this.result.kind == 'passed'`. -/
def FieldSt.passed (s : FieldSt π ε) : Bool :=
  match s.kind with
  | .validated r => r.isPassed
  | _ => false

/-- `clear()` from state.ts lines 103-105:
`unvalidated(this.rule, {...this.jobs, next: () => passed})` — back to
`unvalidated`, `jobs.current` untouched, `jobs.next` replaced by the trivial
passed job. -/
def FieldSt.clear (s : FieldSt π ε) : FieldSt π ε :=
  { kind := .unvalidated, rule := s.rule,
    jobs := { current := s.jobs.current, next := some Job.pass } }

/-- The `kind` a non-immediate `validate` writes (state.ts lines 121-123 and
132-134): `clearWhenValidating ? (kind == 'unvalidated' ? 'validating' : kind)
: 'validating'`. -/
def validateKind (cwv : Bool) (k : FKind) : FKind :=
  if cwv then (if k = FKind.unvalidated then .validating else k) else .validating

/-- `validate(data, delay = 0, clearWhenValidating = false)` from state.ts lines
109-140. Three source branches:
  * `delay == 0` and a sync rule (lines 112-116): run immediately, straight to
    `validated` with `jobs` untouched;
  * `delay == 0` and an async rule (lines 119-128): write the zero-delay closure
    `() => self.rule.run(data)` into `jobs.next` and apply the kind ternary;
  * `delay > 0` (lines 130-139): write the delayed timer closure, whose eventual
    result is `self.rule.run(data)`, into `jobs.next` and apply the same ternary.
In the embedding the two job-writing branches coincide because a job is tagged by
the data its closure captured. -/
def FieldSt.validate (s : FieldSt π ε) (data : π) (delay : Nat) (cwv : Bool) :
    FieldSt π ε :=
  match s.rule with
  | .sync run =>
    if delay = 0 then
      { s with kind := .validated (run data) }
    else
      { s with kind := validateKind cwv s.kind,
               jobs := { current := s.jobs.current, next := some (Job.run data) } }
  | .async _ =>
      { s with kind := validateKind cwv s.kind,
               jobs := { current := s.jobs.current, next := some (Job.run data) } }

/-! ## Job promotion driver (widget.tsx lines 22-52)

Each tick the `field` widget runs `jobManager` (promotes `next` into `current`
when `current` is empty) and, under `onlyIf(jobs.current != null)`, awaits the
running promise and folds its settlement back into the state. The two guards
are mutually exclusive, so one tick is one deterministic step; a tick on a
field whose running job has not settled yet changes nothing and is omitted. -/

/-- The result the settlement fold receives: the resolved `Result`, or — via
`{on_fail: () => failed('generic')}` (widget.tsx line 29) — `failed('generic')`
for a rejected promise. -/
def FRule.settleResult (r : FRule π ε) (j : Job π) : Result :=
  match r.exec j with
  | .ok res => res
  | .error _ => failedR "generic" []

/-- One driver step; `none` when the field is quiescent (nothing queued, nothing
running).
  * `current` empty, `next` queued (widget.tsx lines 41-52, `jobManager`):
    invoke the closure, move it into `current`, clear `next`.
  * `current` settled (widget.tsx lines 24-34): with no `next` queued, fold into
    `validated` with the settled result and clear `current`; with a `next`
    queued, discard the settled result, clear `current`, keep `next`. -/
def driverStep (s : FieldSt π ε) : Option (FieldSt π ε) :=
  match s.jobs.current with
  | none =>
    match s.jobs.next with
    | some j => some { s with jobs := { current := some j, next := none } }
    | none => none
  | some j =>
    match s.jobs.next with
    | none => some { s with kind := .validated (s.rule.settleResult j),
                            jobs := { current := none, next := none } }
    | some _ => some { s with jobs := { current := none, next := s.jobs.next } }

/-- Run the driver for at most `fuel` steps, stopping at quiescence. -/
def driverRun : Nat → FieldSt π ε → FieldSt π ε
  | 0, s => s
  | fuel + 1, s =>
    match driverStep s with
    | none => s
    | some s' => driverRun fuel s'

/-- One driver tick as a total state update (the action the widget folds into
the aggregate). -/
def driverTick (s : FieldSt π ε) : FieldSt π ε :=
  (driverStep s).getD s

/-! ## Validator aggregate (state.ts lines 143-228)

`fields` is a JS object keyed by field name: an association list with
first-match lookup. A record value is a total map from field names to values
(`data[k]`). -/

/-- JS object property read `fields[k]`: the first matching entry, else
`undefined`. -/
def fieldsGet : List (String × α) → String → Option α
  | [], _ => none
  | kv :: rest, k => if kv.1 = k then some kv.2 else fieldsGet rest k

/-- JS object property write `{...fields, [k]: act(fields[k])}`. -/
def fieldsUpdate (l : List (String × α)) (k : String) (act : α → α) :
    List (String × α) :=
  l.map (fun kv => if kv.1 = k then (kv.1, act kv.2) else kv)

structure Agg (π ε : Type) where
  fields : List (String × FieldSt π ε)

/-- `validatorState(rules)` (state.ts lines 143-149): every schema entry becomes
an `unvalidated` field with empty jobs. -/
def validatorStateInit (rules : List (String × FRule π ε)) : Agg π ε :=
  ⟨rules.map (fun kv =>
    (kv.1, { kind := .unvalidated, rule := kv.2, jobs := ⟨none, none⟩ }))⟩

/-- `kind == 'validating'` as a Bool. -/
def FKind.isValidating : FKind → Bool
  | .validating => true
  | _ => false

/-- `kind == 'validated'` as a Bool. -/
def FKind.isValidated : FKind → Bool
  | .validated _ => true
  | _ => false

/-- `kind()` from state.ts lines 155-167: `'validating'` when some field is
validating; else `'unvalidated'` when some field is not validated; else
`'validated'` (the loops with early return are folded into `List.any`). -/
def Agg.kind (s : Agg π ε) : String :=
  if s.fields.any (fun kv => kv.2.kind.isValidating) then "validating"
  else if s.fields.any (fun kv => !kv.2.kind.isValidated) then "unvalidated"
  else "validated"

/-- `error(k)` from state.ts lines 197-211. The source first computes
`field = s.fields[k]`, then:
  * when `k != null` it loops over every field of the aggregate and returns
    `true` as soon as any field's `passed()` is `false` — the `k` argument is
    never used to select a field;
  * when `k == null`, `field` is `fields[null]`, i.e. `undefined`, so the
    trailing `if (field == null) return false` fires and the call returns
    `false` unconditionally. -/
def Agg.error (s : Agg π ε) (k : Option String) : Bool :=
  match k with
  | some _ => s.fields.any (fun kv => kv.2.passed == false)
  | none => false

/-- `validate(data, field, delay, clearWhenValidating)` from state.ts lines
182-195. With a field name, `newS.fields[field].validate(...)` dereferences the
field state: when the schema supplied no rule for that name the access yields
`undefined` and the call throws (`none`). Without a field name every field is
validated against its projection of the record. -/
def Agg.validate (s : Agg π ε) (data : String → π) (field : Option String)
    (delay : Nat) (cwv : Bool) : Option (Agg π ε) :=
  match field with
  | some f =>
    match fieldsGet s.fields f with
    | some _ => some ⟨fieldsUpdate s.fields f (fun st => st.validate (data f) delay cwv)⟩
    | none => none
  | none =>
    some ⟨s.fields.map (fun kv => (kv.1, kv.2.validate (data kv.1) delay cwv))⟩

/-- `clear(k)` from state.ts lines 213-226. With a field name,
`newS.fields[k].clear()` throws (`none`) when the name has no field state;
without one every field is cleared. -/
def Agg.clear (s : Agg π ε) (k : Option String) : Option (Agg π ε) :=
  match k with
  | some f =>
    match fieldsGet s.fields f with
    | some _ => some ⟨fieldsUpdate s.fields f FieldSt.clear⟩
    | none => none
  | none => some ⟨s.fields.map (fun kv => (kv.1, kv.2.clear))⟩

/-- The validator widget's fold of a per-field action into the aggregate
(widget.tsx line 14): `{...s1, fields: {...s1.fields, [k]: a(s1.fields[k])}}` —
only the entry for `k` is rewritten. -/
def Agg.applyFieldAction (s : Agg π ε) (k : String)
    (act : FieldSt π ε → FieldSt π ε) : Agg π ε :=
  ⟨fieldsUpdate s.fields k act⟩

/-! ## The early prototype validator (src/unnamed/part_003 lines 518-592)

`validatorFromResult(rules, results)` keeps a map of plain `Result`s; its
`validate` opens with the guard
`if (field != null && rules[field] == null) return this`. -/

structure ProtoValidator (π : Type) where
  rules : List (String × (π → Result))
  results : List (String × Result)

/-- `newResults.set(field, v)`: replace the entry, or append it. -/
def protoSet (l : List (String × Result)) (k : String) (v : Result) :
    List (String × Result) :=
  match fieldsGet l k with
  | some _ => l.map (fun kv => if kv.1 = k then (kv.1, v) else kv)
  | none => l ++ [(k, v)]

/-- `validatorFromResult(...).validate(data, field)` (part_003 lines 575-588):
a named field with no schema rule is a no-op returning `this`; a named ruled
field re-runs just that rule over a copy of the results; with no field name
every rule is re-run into a fresh results map. -/
def ProtoValidator.validate (s : ProtoValidator π) (data : String → π)
    (field : Option String) : ProtoValidator π :=
  match field with
  | some f =>
    match fieldsGet s.rules f with
    | none => s
    | some r => { s with results := protoSet s.results f (r (data f)) }
  | none =>
    { s with results := s.rules.map (fun kv => (kv.1, kv.2 (data kv.1))) }

/-! ## Helper lemmas -/

theorem fieldsGet_update_self (l : List (String × α)) (k : String) (act : α → α) :
    fieldsGet (fieldsUpdate l k act) k = (fieldsGet l k).map act := by
  induction l with
  | nil => rfl
  | cons kv rest ih =>
    by_cases h : kv.1 = k
    · simp [fieldsUpdate, fieldsGet, h]
    · simp [fieldsUpdate, fieldsGet, h]
      simpa [fieldsUpdate] using ih

theorem fieldsGet_update_ne (l : List (String × α)) (k k' : String) (act : α → α)
    (h : k' ≠ k) :
    fieldsGet (fieldsUpdate l k act) k' = fieldsGet l k' := by
  induction l with
  | nil => rfl
  | cons kv rest ih =>
    simp only [fieldsUpdate, List.map_cons] at ih ⊢
    have h2 : ¬ k = k' := fun hc => h hc.symm
    by_cases hk : kv.1 = k
    · have h1 : ¬ kv.1 = k' := fun hc => h (hc.symm.trans hk)
      simp [fieldsGet, hk, h1, h2, ih]
    · by_cases hk' : kv.1 = k'
      · simp [fieldsGet, hk, hk', h, ih]
      · simp [fieldsGet, hk, hk', ih]

theorem fieldsGet_mem (l : List (String × α)) (k : String) (v : α)
    (h : fieldsGet l k = some v) : (k, v) ∈ l := by
  induction l with
  | nil => simp [fieldsGet] at h
  | cons kv rest ih =>
    obtain ⟨a, b⟩ := kv
    by_cases hk : a = k
    · simp [fieldsGet, hk] at h
      subst hk
      subst h
      exact List.mem_cons_self _ _
    · simp [fieldsGet, hk] at h
      exact List.mem_cons_of_mem _ (ih h)

theorem isValidating_eq_false (k : FKind) (h : k ≠ FKind.validating) :
    k.isValidating = false := by
  cases k <;> simp_all [FKind.isValidating]

/-- A field state with a delay > 0, and a field state with an async rule at any
delay, queue the requested job into `jobs.next` (overwriting the slot), leave
`jobs.current` and the rule alone, and set the kind by the
`clearWhenValidating` ternary. -/
theorem validate_delayed (s : FieldSt π ε) (v : π) (d : Nat) (b : Bool)
    (hd : d ≠ 0) :
    s.validate v d b =
      { kind := validateKind b s.kind, rule := s.rule,
        jobs := { current := s.jobs.current, next := some (Job.run v) } } := by
  obtain ⟨k, r, c, nx⟩ := s
  cases r <;> simp [FieldSt.validate, hd]

theorem driverRun_quiescent (n : Nat) (s : FieldSt π ε) (h : driverStep s = none) :
    driverRun n s = s := by
  cases n <;> simp [driverRun, h]

theorem driverRun_add (m n : Nat) (s : FieldSt π ε) :
    driverRun (m + n) s = driverRun n (driverRun m s) := by
  induction m generalizing s with
  | zero => simp [driverRun]
  | succ m ih =>
    have hm : m + 1 + n = (m + n) + 1 := by omega
    rw [hm]
    cases h : driverStep s with
    | none => rw [driverRun_quiescent _ _ h, driverRun_quiescent _ _ h,
        driverRun_quiescent _ _ h]
    | some s' =>
      show (match driverStep s with
        | none => s | some s2 => driverRun (m + n) s2) = _
      rw [h]
      show driverRun (m + n) s' =
        driverRun n (match driverStep s with | none => s | some s2 => driverRun m s2)
      rw [h, ih]

/-! ## Claim theorems -/

/-! Support values for the claim C1 theorems. -/

def c1fail : SyncRule Unit Int := ⟨fun _ _ => failedR "r1" []⟩

def c1pass : SyncRule Unit Int := ⟨fun _ _ => Result.passed⟩

def c1r2 : SyncRule Unit Int := ⟨fun v _ => if v = 3 then Result.passed else failedR "r2" []⟩

def c1afail : AsyncRule Unit Int Unit := ⟨fun _ _ => Except.ok (failedR "r1" [])⟩

def c1apass : AsyncRule Unit Int Unit := ⟨fun _ _ => Except.ok Result.passed⟩

def c1ar2 : AsyncRule Unit Int Unit := ⟨fun _ _ => Except.ok (failedR "r2" [])⟩

/-- C1: for sync rules, `r1.and(r2)` run on `(v, root)` returns `r1`'s `Failed`
result whenever `r1` fails — and the composite's result is then independent of
the right operand, which for a pure predicate is exactly the observation that
`r2.run` is never invoked — while when the left rule passes the composite's
result is exactly `r2`'s. The same holds for two async rules with `run` meaning
the awaited settlement. The left operand is evaluated first by construction of
the composed closure. -/
theorem and_short_circuits (r1 r2 r2' p1 : SyncRule ρ π)
    (q1 q2 q2' p2 : AsyncRule ρ π ε) (v : π) (rt : ρ)
    (n : String) (d : List (String × String))
    (h1 : r1.run v rt = Result.failed n d)
    (hp : p1.run v rt = Result.passed)
    (ha : q1.run v rt = Except.ok (Result.failed n d))
    (hap : p2.run v rt = Except.ok Result.passed) :
    (r1.and r2).run v rt = Result.failed n d ∧
    (r1.and r2').run v rt = Result.failed n d ∧
    (p1.and r2).run v rt = r2.run v rt ∧
    (q1.and q2).run v rt = Except.ok (Result.failed n d) ∧
    (q1.and q2').run v rt = Except.ok (Result.failed n d) ∧
    (p2.and q2).run v rt = q2.run v rt := by
  refine ⟨?_, ?_, ?_, ?_, ?_, ?_⟩ <;>
    simp only [SyncRule.and, AsyncRule.and, h1, hp, ha, hap] <;> rfl

/-- C1 witness: the short-circuit equations at concrete rules and input. -/
theorem and_short_circuits_witness :
    (c1fail.and c1r2).run 0 () = Result.failed "r1" [("name", "r1")] ∧
    (c1fail.and c1pass).run 0 () = Result.failed "r1" [("name", "r1")] ∧
    (c1pass.and c1r2).run 0 () = c1r2.run 0 () ∧
    (c1afail.and c1ar2).run 0 () = Except.ok (Result.failed "r1" [("name", "r1")]) ∧
    (c1afail.and c1apass).run 0 () = Except.ok (Result.failed "r1" [("name", "r1")]) ∧
    (c1apass.and c1ar2).run 0 () = c1ar2.run 0 () :=
  and_short_circuits c1fail c1r2 c1pass c1pass c1afail c1ar2 c1apass c1apass
    0 () "r1" [("name", "r1")] rfl rfl rfl rfl

/-- C10: in all three rule-builder catalog variants, `lesser(n)` and
`lesserOr(n)` test `v > n` — so both pass exactly when `v > n` (no less-than
comparison, no equality case) and are extensionally identical, as pass/fail
predicates, to each other and to `bigger(n)`. -/
theorem lesser_variants_test_greater :
    ∀ (n v : Int),
      (RB.lesser n v).isPassed = decide (v > n) ∧
      (RB.lesserOr n v).isPassed = decide (v > n) ∧
      (RB.bigger n v).isPassed = decide (v > n) ∧
      (RB.lesser n v).isPassed = (RB.bigger n v).isPassed ∧
      (RB.lesserOr n v).isPassed = (RB.bigger n v).isPassed ∧
      (RB1.lesser n v).isPassed = decide (v > n) ∧
      (RB1.lesserOr n v).isPassed = decide (v > n) ∧
      (RB1.bigger n v).isPassed = decide (v > n) ∧
      (RBv2.lesser n v).isPassed = decide (v > n) ∧
      (RBv2.lesserOr n v).isPassed = decide (v > n) ∧
      (RBv2.bigger n v).isPassed = decide (v > n) := by
  intro n v
  by_cases h : v > n <;>
    simp [RB.lesser, RB.lesserOr, RB.bigger, RB1.lesser, RB1.lesserOr, RB1.bigger,
      RBv2.lesser, RBv2.lesserOr, RBv2.bigger, failedR, Result.isPassed, h]

/-! Support values for the claim C5 theorems. -/

/-- A root-reading rule built through the catalog's `custom` escape hatch; the
root type is `Option Bool`, whose `none` models the JS `undefined` root. -/
def c5rule : SyncRule (Option Bool) Unit :=
  customRule (fun _ rt =>
    match rt with
    | some true => Result.passed
    | _ => failedR "custom" [])

/-- A rule whose predicate ignores the root. -/
def c5ign : SyncRule (Option Bool) Int :=
  ⟨fun v _ => RB.bigger 0 v⟩

/-- C5 counterexample: for the root-reading rule `c5rule`, the sync run on
`(v, root)` passes, but the lifted rule resolves with the result of running the
predicate with the root slot holding `undefined` — a `Failed` result — so
lifting then running is not observably equal to running the sync rule. -/
theorem toAsync_root_counterexample :
    c5rule.run () (some true) = Result.passed ∧
    (c5rule.toAsync none : AsyncRule (Option Bool) Unit Unit).run () (some true)
      = Except.ok (failedR "custom" []) ∧
    failedR "custom" [] ≠ Result.passed :=
  ⟨rfl, rfl, by decide⟩

/-- C5 amended: `r.async()` produces an async rule whose promise resolves with
the sync predicate applied to the value and the `undefined` root — the root the
async rule is run with is dropped by the lift — and therefore coincides with
`r.run(v, root)` exactly for rules whose predicate ignores its root argument
(every value-only catalog primitive). -/
theorem toAsync_runs_without_root (r : SyncRule ρ π) (undef : ρ) (v : π) (rt : ρ)
    (hroot : ∀ (a : π) (x y : ρ), r.run a x = r.run a y) :
    (r.toAsync undef : AsyncRule ρ π Unit).run v rt = Except.ok (r.run v undef) ∧
    (r.toAsync undef : AsyncRule ρ π Unit).run v rt = Except.ok (r.run v rt) :=
  ⟨rfl, by rw [SyncRule.toAsync]; exact congrArg Except.ok (hroot v undef rt)⟩

/-- C5 witness: the lift equations at a root-ignoring rule and concrete input. -/
theorem toAsync_runs_without_root_witness :
    (c5ign.toAsync none : AsyncRule (Option Bool) Int Unit).run 5 (some true)
      = Except.ok (c5ign.run 5 none) ∧
    (c5ign.toAsync none : AsyncRule (Option Bool) Int Unit).run 5 (some true)
      = Except.ok (c5ign.run 5 (some true)) :=
  toAsync_runs_without_root c5ign none 5 (some true) (fun _ _ _ => rfl)

/-! Support values for the claim C2 theorems. -/

def c2f : FieldSt Int Unit :=
  { kind := FKind.unvalidated, rule := FRule.sync (fun v => RB.bigger 0 v),
    jobs := ⟨none, none⟩ }

/-- C2: two `validate` calls before the first requested job resolves leave the
second request alone in `jobs.next` (last-write-wins; the one-slot record can
hold no deeper queue) and leave whatever was in flight in `jobs.current`; the
driver then reaches quiescence within three ticks in the single terminal
`Validated` state whose result is computed from `v2`, and — whenever the two
requests disagree — never in one computed from `v1`. The `jobs.current` of the
start state is arbitrary, so this covers both a still-queued and an
already-promoted superseded first request. -/
theorem validate_debounce (s : FieldSt π ε) (v1 v2 : π) (d1 d2 : Nat)
    (b1 b2 : Bool) (h1 : d1 ≠ 0) (h2 : d2 ≠ 0)
    (hneq : s.rule.settleResult (Job.run v1) ≠ s.rule.settleResult (Job.run v2)) :
    ((s.validate v1 d1 b1).validate v2 d2 b2).jobs.next = some (Job.run v2) ∧
    ((s.validate v1 d1 b1).validate v2 d2 b2).jobs.current = s.jobs.current ∧
    driverRun 3 ((s.validate v1 d1 b1).validate v2 d2 b2) =
      { kind := FKind.validated (s.rule.settleResult (Job.run v2)),
        rule := s.rule, jobs := ⟨none, none⟩ } ∧
    driverStep (driverRun 3 ((s.validate v1 d1 b1).validate v2 d2 b2)) = none ∧
    (driverRun 3 ((s.validate v1 d1 b1).validate v2 d2 b2)).kind ≠
      FKind.validated (s.rule.settleResult (Job.run v1)) := by
  obtain ⟨k, r, c, nx⟩ := s
  rw [validate_delayed _ _ _ _ h1, validate_delayed _ _ _ _ h2]
  cases c with
  | none =>
    refine ⟨rfl, rfl, rfl, rfl, fun hcontra => hneq ?_⟩
    have h3 : driverRun 3
        ({ kind := validateKind b2 (validateKind b1 k), rule := r,
           jobs := ⟨none, some (Job.run v2)⟩ } : FieldSt π ε) =
        { kind := FKind.validated (FRule.settleResult r (Job.run v2)),
          rule := r, jobs := ⟨none, none⟩ } := rfl
    rw [h3] at hcontra
    simp only [FieldSt.kind] at hcontra
    exact (FKind.validated.injEq _ _ ▸ hcontra : _ = _).symm
  | some j1 =>
    refine ⟨rfl, rfl, rfl, rfl, fun hcontra => hneq ?_⟩
    have h3 : driverRun 3
        ({ kind := validateKind b2 (validateKind b1 k), rule := r,
           jobs := ⟨some j1, some (Job.run v2)⟩ } : FieldSt π ε) =
        { kind := FKind.validated (FRule.settleResult r (Job.run v2)),
          rule := r, jobs := ⟨none, none⟩ } := rfl
    rw [h3] at hcontra
    simp only [FieldSt.kind] at hcontra
    exact (FKind.validated.injEq _ _ ▸ hcontra : _ = _).symm

/-- C2 witness: the debounce run at a concrete field state and two disagreeing
requests, each delayed 300. -/
theorem validate_debounce_witness :
    ((c2f.validate (-1) 300 false).validate 1 300 false).jobs.next
      = some (Job.run 1) ∧
    ((c2f.validate (-1) 300 false).validate 1 300 false).jobs.current
      = c2f.jobs.current ∧
    driverRun 3 ((c2f.validate (-1) 300 false).validate 1 300 false) =
      { kind := FKind.validated (c2f.rule.settleResult (Job.run 1)),
        rule := c2f.rule, jobs := ⟨none, none⟩ } ∧
    driverStep (driverRun 3 ((c2f.validate (-1) 300 false).validate 1 300 false))
      = none ∧
    (driverRun 3 ((c2f.validate (-1) 300 false).validate 1 300 false)).kind ≠
      FKind.validated (c2f.rule.settleResult (Job.run (-1))) :=
  validate_debounce c2f (-1) 1 300 300 false false (by decide) (by decide)
    (by decide)

/-! Support values for the claim C3 theorems. -/

def c3Agg : Agg Int Unit :=
  validatorStateInit [("f", FRule.sync (fun v => RB.bigger 0 v))]

/-- C3 counterexample: an aggregate whose single field is `Unvalidated`, so its
`passed()` is `false` — the claim says `error()` with no argument must then be
`true`, but the code returns `false`. -/
theorem error_no_arg_counterexample :
    c3Agg.error none = false ∧
    c3Agg.fields.any (fun kv => kv.2.passed == false) = true :=
  ⟨rfl, rfl⟩

/-- C3 amended: `error(field)` with a field argument returns true iff at least
one field of the whole aggregate — not necessarily the named one — has
`passed()` false (which does cover `Unvalidated` and `Validating` fields as
erroring), while `error()` with no argument always returns false: the two
documented behaviours are swapped relative to the claim, and the
argument-less form checks nothing. -/
theorem error_scans_all_fields (A : Agg π ε) (k : String) :
    (A.error (some k) = true ↔ ∃ kv ∈ A.fields, kv.2.passed = false) ∧
    A.error none = false := by
  constructor
  · simp [Agg.error, List.any_eq_true]
  · rfl

/-! Support values for the claim C4 theorems. -/

def c4f : FieldSt Int Unit :=
  { kind := FKind.validated Result.passed,
    rule := FRule.async (fun _ => Except.ok Result.passed),
    jobs := ⟨none, none⟩ }

/-- C4 counterexample: a `Validated` field revalidated with delay 0, an async
rule, and the default `clearWhenValidating = false` moves to `Validating` —
the claim says it never moves back to `Validating` unless the caller passes
`true` — and with `clearWhenValidating = true` it stays `Validated`, the
opposite of opting in. -/
theorem validate_zero_delay_flicker_counterexample :
    c4f.kind = FKind.validated Result.passed ∧
    (c4f.validate 7 0 false).kind = FKind.validating ∧
    (c4f.validate 7 0 true).kind = FKind.validated Result.passed :=
  ⟨rfl, rfl, rfl⟩

/-- C4 amended: with delay 0 and an asynchronous rule, a zero-delay job closure
is written into `jobs.next` (overwriting any prior pending next) and
`jobs.current` is untouched; the kind becomes `Validating` when
`clearWhenValidating` is false (the default) — so a `Validated` field does
move back to `Validating` then — while with `clearWhenValidating = true` the
kind is kept unless the field is `Unvalidated`: the flag's effect is inverted
relative to the claim. -/
theorem validate_zero_delay_async (s : FieldSt π ε) (v : π) (cwv : Bool)
    (arun : π → Except ε Result) (h : s.rule = FRule.async arun) :
    (s.validate v 0 cwv).jobs.next = some (Job.run v) ∧
    (s.validate v 0 cwv).jobs.current = s.jobs.current ∧
    (cwv = false → (s.validate v 0 cwv).kind = FKind.validating) ∧
    (cwv = true → s.kind = FKind.unvalidated →
      (s.validate v 0 cwv).kind = FKind.validating) ∧
    (cwv = true → s.kind ≠ FKind.unvalidated →
      (s.validate v 0 cwv).kind = s.kind) := by
  obtain ⟨k, r, c, nx⟩ := s
  cases h
  refine ⟨rfl, rfl, ?_, ?_, ?_⟩
  · rintro rfl
    simp [FieldSt.validate, validateKind]
  · rintro rfl hk
    simp only at hk
    simp [FieldSt.validate, validateKind, hk]
  · rintro rfl hk
    simp only at hk
    simp [FieldSt.validate, validateKind, hk]

/-- C4 witness: the amended behaviour at the concrete `Validated` field. -/
theorem validate_zero_delay_async_witness :
    (c4f.validate 7 0 true).jobs.next = some (Job.run 7) ∧
    (c4f.validate 7 0 true).jobs.current = c4f.jobs.current ∧
    (true = false → (c4f.validate 7 0 true).kind = FKind.validating) ∧
    (true = true → c4f.kind = FKind.unvalidated →
      (c4f.validate 7 0 true).kind = FKind.validating) ∧
    (true = true → c4f.kind ≠ FKind.unvalidated →
      (c4f.validate 7 0 true).kind = c4f.kind) :=
  validate_zero_delay_async c4f 7 true (fun _ => Except.ok Result.passed) rfl

/-! Support values for the claim C6 theorems. -/

/-- The initial state of a schema field carrying the `bigger(0)` rule. -/
def c6fb : FieldSt Int Unit :=
  { kind := FKind.unvalidated, rule := FRule.sync (fun v => RB.bigger 0 v),
    jobs := ⟨none, none⟩ }

def c6A0 : Agg Int Unit :=
  validatorStateInit
    [("a", FRule.sync (fun v => RB.bigger 0 v)),
     ("b", FRule.sync (fun v => RB.bigger 0 v))]

/-- `c6A0` after `validate(data, "a", 5)`: field `a` is `Validating` with a
queued job. -/
def c6A1 : Agg Int Unit :=
  (c6A0.validate (fun _ => 1) (some "a") 5 false).getD c6A0

/-- `c6A1` after `clear("b")`. -/
def c6A2 : Agg Int Unit :=
  (c6A1.clear (some "b")).getD c6A1

/-- C6 counterexample: on an aggregate with a sibling field left `Validating`,
`clear(field)` does clear the field to `Unvalidated`, but `kind()` then reports
`"validating"`, not the `"unvalidated"` the claim promises. -/
theorem clear_then_kind_counterexample :
    (fieldsGet c6A2.fields "b").map FieldSt.kind = some FKind.unvalidated ∧
    ((fieldsGet c6A2.fields "b").map (fun f => f.jobs.next)) = some (some Job.pass) ∧
    c6A2.kind = "validating" ∧
    c6A2.kind ≠ "unvalidated" := by
  refine ⟨rfl, rfl, rfl, fun h => ?_⟩
  exact (by decide : ("validating" : String) ≠ "unvalidated") (Eq.trans (by rfl) h)

/-- C6 amended: `clear()` on a field returns an `Unvalidated` state whose
`jobs.next` holds the trivial job resolving to `Passed` (neutralising whatever
`jobs.current` — left untouched — eventually settles with), and on the
aggregate `clear(field)` rewrites only that entry; afterwards `error(field)`
reports `true`, and `kind()` reports `"unvalidated"` provided no other field is
left `Validating`. -/
theorem clear_field_effects (A : Agg π ε) (k : String) (f : FieldSt π ε)
    (hmem : fieldsGet A.fields k = some f)
    (hnov : ∀ kv ∈ A.fields, kv.1 ≠ k → kv.2.kind ≠ FKind.validating) :
    A.clear (some k) = some (A.applyFieldAction k FieldSt.clear) ∧
    fieldsGet (A.applyFieldAction k FieldSt.clear).fields k = some f.clear ∧
    f.clear.kind = FKind.unvalidated ∧
    f.clear.jobs.next = some Job.pass ∧
    f.clear.jobs.current = f.jobs.current ∧
    FRule.exec f.rule Job.pass = Except.ok Result.passed ∧
    (A.applyFieldAction k FieldSt.clear).error (some k) = true ∧
    (A.applyFieldAction k FieldSt.clear).kind = "unvalidated" := by
  have hget : fieldsGet (A.applyFieldAction k FieldSt.clear).fields k
      = some f.clear := by
    show fieldsGet (fieldsUpdate A.fields k FieldSt.clear) k = _
    rw [fieldsGet_update_self, hmem]
    rfl
  refine ⟨?_, hget, rfl, rfl, rfl, rfl, ?_, ?_⟩
  · simp [Agg.clear, hmem, Agg.applyFieldAction]
  · show ((A.applyFieldAction k FieldSt.clear).fields.any
      (fun kv => kv.2.passed == false)) = true
    rw [List.any_eq_true]
    exact ⟨(k, f.clear), fieldsGet_mem _ _ _ hget, rfl⟩
  · have hval : ((A.applyFieldAction k FieldSt.clear).fields.any
        (fun kv => kv.2.kind.isValidating)) = false := by
      rw [List.any_eq_false]
      intro x hx
      obtain ⟨kv, hkv, rfl⟩ := List.mem_map.mp hx
      by_cases hk : kv.1 = k
      · simp [hk, FieldSt.clear, FKind.isValidating]
      · simp only [if_neg hk]
        simp [isValidating_eq_false _ (hnov kv hkv hk)]
    have hunv : ((A.applyFieldAction k FieldSt.clear).fields.any
        (fun kv => !kv.2.kind.isValidated)) = true := by
      rw [List.any_eq_true]
      exact ⟨(k, f.clear), fieldsGet_mem _ _ _ hget, rfl⟩
    show Agg.kind _ = _
    rw [Agg.kind, hval, hunv]
    rfl

/-- C6 witness: the clear effects at a concrete two-field aggregate with no
sibling `Validating`. -/
theorem clear_field_effects_witness :
    c6A0.clear (some "b") = some (c6A0.applyFieldAction "b" FieldSt.clear) ∧
    fieldsGet (c6A0.applyFieldAction "b" FieldSt.clear).fields "b" = some c6fb.clear ∧
    c6fb.clear.kind = FKind.unvalidated ∧
    c6fb.clear.jobs.next = some Job.pass ∧
    c6fb.clear.jobs.current = c6fb.jobs.current ∧
    FRule.exec c6fb.rule Job.pass = Except.ok Result.passed ∧
    (c6A0.applyFieldAction "b" FieldSt.clear).error (some "b") = true ∧
    (c6A0.applyFieldAction "b" FieldSt.clear).kind = "unvalidated" :=
  clear_field_effects c6A0 "b" c6fb rfl
    (by
      intro kv hkv _
      simp only [c6A0, validatorStateInit, List.map_cons, List.map_nil,
        List.mem_cons, List.not_mem_nil, or_false] at hkv
      rcases hkv with rfl | rfl <;> simp)

/-! Support values for the claim C7 theorems. -/

def c7A : Agg Int Unit :=
  validatorStateInit [("a", FRule.sync (fun v => RB.bigger 0 v))]

def c7P : ProtoValidator Int :=
  ⟨[("a", fun v => RB.bigger 0 v)], []⟩

/-- C7 counterexample: `validate` naming a field that has no rule (so no
FieldState entry exists) throws — modelled as `none` — instead of returning
the unchanged aggregate state. -/
theorem validate_missing_field_counterexample :
    c7A.validate (fun _ => 0) (some "missing") 0 false = none ∧
    (none : Option (Agg Int Unit)) ≠ some c7A := by
  exact ⟨rfl, by simp⟩

/-- C7 amended: only the early prototype (`validatorFromResult`) treats
`validate` on an unruled field as a no-op returning the unchanged state; the
current `validatorState.validate` dereferences the missing field state and
throws a TypeError (modelled as `none`), so not every outcome of the public
surface is a value. -/
theorem validate_missing_field (A : Agg π ε) (P : ProtoValidator π)
    (data pdata : String → π) (f g : String) (d : Nat) (b : Bool)
    (hA : fieldsGet A.fields f = none) (hP : fieldsGet P.rules g = none) :
    A.validate data (some f) d b = none ∧
    P.validate pdata (some g) = P := by
  constructor
  · simp [Agg.validate, hA]
  · simp [ProtoValidator.validate, hP]

/-- C7 witness: the crash and the prototype no-op at concrete states. -/
theorem validate_missing_field_witness :
    c7A.validate (fun _ => 0) (some "x") 0 false = none ∧
    c7P.validate (fun _ => 0) (some "x") = c7P :=
  validate_missing_field c7A c7P (fun _ => 0) (fun _ => 0) "x" "x" 0 false
    rfl rfl

/-- C8 counterexample: the comparison primitives `max`, `min` and `email`
throw on an absent raw value (modelled as `none`) instead of returning a
`Result`, and the `contains`/`containsNot`/`between`/`betweenIncuding` catalog
entries are `null`, so invoking them throws as well. -/
theorem builder_crash_counterexample :
    RB.max 3 none = none ∧ RB.min 3 none = none ∧ RB.email none = none ∧
    RB.hasCapital none = none ∧
    RB.contains = none ∧ RB.containsNot = none ∧
    RB.between = none ∧ RB.betweenIncuding = none :=
  ⟨rfl, rfl, rfl, rfl, rfl, rfl, rfl, rfl⟩

/-- C8 amended: the primitives that guard the raw value with `(v || '')` —
`required`, `empty`, `length`, `startsWith`, `startsNotWith`, `endsWith`,
`endsNotWith`, `url` — are total on every value including an absent one
(and `min`/`max` are total on present values); but `min`, `max`, `email` and
`hasCapital` dereference the raw value directly and throw on an absent value,
and `contains`, `containsNot`, `between`, `betweenIncuding` are unimplemented
`null` entries that throw when invoked. -/
theorem builder_primitives_totality :
    (∀ (n : Int) (v : StrVal) (s : String),
      (RB.required v).isSome ∧ (RB.empty v).isSome ∧ (RB.length n v).isSome ∧
      (RB.startsWith s v).isSome ∧ (RB.startsNotWith s v).isSome ∧
      (RB.endsWith s v).isSome ∧ (RB.endsNotWith s v).isSome ∧
      (RB.url v).isSome) ∧
    (∀ (n : Int) (s : String), RB.max n (some s) ≠ none ∧ RB.min n (some s) ≠ none) ∧
    RB.max 3 none = none ∧ RB.min 1 none = none ∧
    RB.email none = none ∧ RB.hasCapital none = none ∧
    RB.contains = none ∧ RB.containsNot = none ∧
    RB.between = none ∧ RB.betweenIncuding = none := by
  refine ⟨?_, ?_, rfl, rfl, rfl, rfl, rfl, rfl, rfl, rfl⟩
  · intro n v s
    exact ⟨rfl, rfl, rfl, rfl, rfl, rfl, rfl, rfl⟩
  · intro n s
    constructor <;> simp [RB.max, RB.min]

/-! Support values for the claim C9 theorems. -/

/-- A field whose promoted job will reject: `jobs.current` holds the running
job and the async rule's promise rejects. -/
def c9f : FieldSt Int Unit :=
  { kind := FKind.validating, rule := FRule.async (fun _ => Except.error ()),
    jobs := ⟨some (Job.run 1), none⟩ }

/-- A healthy sibling field. -/
def c9g : FieldSt Int Unit :=
  { kind := FKind.unvalidated, rule := FRule.sync (fun v => RB.bigger 0 v),
    jobs := ⟨none, none⟩ }

def c9A : Agg Int Unit := ⟨[("a", c9f), ("b", c9g)]⟩

/-- C9: when a field's promoted running job rejects, the driver's settlement
fold produces a `Validated` state carrying `failed('generic')` — the rejection
is folded into a value, never propagated — and folding that per-field action
into the aggregate rewrites only that field's entry, leaving every other
field's state untouched. -/
theorem rejected_job_folds_generic (A : Agg π ε) (k : String) (f : FieldSt π ε)
    (j : Job π) (e : ε)
    (hmem : fieldsGet A.fields k = some f)
    (hcur : f.jobs.current = some j)
    (hnext : f.jobs.next = none)
    (hrej : f.rule.exec j = Except.error e) :
    driverTick f = { kind := FKind.validated (failedR "generic" []),
                     rule := f.rule, jobs := ⟨none, none⟩ } ∧
    fieldsGet (A.applyFieldAction k driverTick).fields k =
      some { kind := FKind.validated (failedR "generic" []),
             rule := f.rule, jobs := ⟨none, none⟩ } ∧
    ∀ k', k' ≠ k →
      fieldsGet (A.applyFieldAction k driverTick).fields k' =
        fieldsGet A.fields k' := by
  have h1 : driverTick f =
      ({ kind := FKind.validated (failedR "generic" []),
         rule := f.rule, jobs := ⟨none, none⟩ } : FieldSt π ε) := by
    obtain ⟨kk, r, c, nx⟩ := f
    simp only at hcur hnext
    subst hcur
    subst hnext
    simp [driverTick, driverStep, FRule.settleResult, hrej]
  refine ⟨h1, ?_, ?_⟩
  · show fieldsGet (fieldsUpdate A.fields k driverTick) k = _
    rw [fieldsGet_update_self, hmem, Option.map_some', h1]
  · intro k' hk
    exact fieldsGet_update_ne A.fields k k' driverTick hk

/-- C9 witness: the rejecting job at the concrete two-field aggregate; the
sibling field `b` is untouched by the fold. -/
theorem rejected_job_folds_generic_witness :
    driverTick c9f = { kind := FKind.validated (failedR "generic" []),
                       rule := c9f.rule, jobs := ⟨none, none⟩ } ∧
    fieldsGet (c9A.applyFieldAction "a" driverTick).fields "a" =
      some { kind := FKind.validated (failedR "generic" []),
             rule := c9f.rule, jobs := ⟨none, none⟩ } ∧
    fieldsGet (c9A.applyFieldAction "a" driverTick).fields "b" =
      fieldsGet c9A.fields "b" :=
  ⟨(rejected_job_folds_generic c9A "a" c9f (Job.run 1) () rfl rfl rfl rfl).1,
   (rejected_job_folds_generic c9A "a" c9f (Job.run 1) () rfl rfl rfl rfl).2.1,
   (rejected_job_folds_generic c9A "a" c9f (Job.run 1) () rfl rfl rfl rfl).2.2
     "b" (by decide)⟩

end TsFormValidator
